import Mathlib

/-!
Shallow embedding of the SegaTorr simulated torrent engine
(src/torrent_manager.py together with the archive helper of src/ui.py),
and proofs of the specification claims about it.

Modelling conventions:
* Python floats are rationals, Python ints are integers, and
  datetime.timedelta values are integer second counts.
* Draws from the random module are explicit oracle parameters
  (RandDraw), constrained to the documented ranges by RandDraw.Valid.
* Filesystem effects are boolean parameters stating whether the
  relevant I/O call succeeds, plus explicit result fields recording
  which on-disk actions were attempted.
* Python string operations (split, replace, the in operator) are
  embedded as executable functions on lists of characters with Python
  semantics (leftmost, non-overlapping matches).
-/

namespace SegaTorr

/-! ## Python string primitives -/

/-- Position of the first occurrence of a nonempty pattern in a character
list: returns the text strictly before the first occurrence and the text
strictly after it, or none when the pattern does not occur. -/
def findSplit (sep : List Char) : List Char → Option (List Char × List Char)
  | [] => none
  | c :: rest =>
    if sep.isPrefixOf (c :: rest) then some ([], (c :: rest).drop sep.length)
    else
      match findSplit sep rest with
      | some (pre, post) => some (c :: pre, post)
      | none => none

/-- Python str.split on a nonempty separator, fuelled for termination. -/
def pySplitAux (sep : List Char) : ℕ → List Char → List (List Char)
  | 0, s => [s]
  | fuel + 1, s =>
    match findSplit sep s with
    | none => [s]
    | some (pre, post) => pre :: pySplitAux sep fuel post

/-- Python str.split on a nonempty separator. -/
def pySplit (sep s : List Char) : List (List Char) :=
  pySplitAux sep (s.length + 1) s

/-- Python str.replace (all leftmost non-overlapping occurrences), fuelled. -/
def pyReplaceAux (pat rep : List Char) : ℕ → List Char → List Char
  | 0, s => s
  | fuel + 1, s =>
    match findSplit pat s with
    | none => s
    | some (pre, post) => pre ++ rep ++ pyReplaceAux pat rep fuel post

/-- Python str.replace (all leftmost non-overlapping occurrences). -/
def pyReplace (pat rep s : List Char) : List Char :=
  pyReplaceAux pat rep (s.length + 1) s

/-- Python substring test (the in operator) for a nonempty pattern. -/
def pyContains (pat s : List Char) : Bool :=
  (findSplit pat s).isSome

/-- Python str.startswith. -/
def pyStartsWith (pre s : List Char) : Bool :=
  pre.isPrefixOf s

/-- Python str.endswith. -/
def pyEndsWith (suf s : List Char) : Bool :=
  suf.isSuffixOf s

/-! ## Data model (torrent_manager.py) -/

/-- The status strings used by the engine (torrent_manager.py line 28:
"downloading, paused, completed, error"). -/
inductive Status where
  | downloading
  | paused
  | completed
  | error
  deriving DecidableEq, Repr

/-- One entry of TorrentInfo.files: the dicts built in
TorrentInfo._create_dummy_files (torrent_manager.py lines 99-103). -/
structure FileEntry where
  name : String
  path : String
  size : ℕ
  deriving DecidableEq, Repr

/-- Download directory, torrent_manager.py line 17. -/
def DOWNLOAD_DIR : String := "/tmp/downloads"

/-- The candidate extensions of _create_dummy_files, line 85. -/
def extensions : List String := [".mp4", ".mkv", ".avi", ".txt", ".pdf", ".zip"]

/-- One batch of draws from the random module, as consumed by a single
TorrentInfo.update_stats call (and the _create_dummy_files call it may
trigger), together with the filesystem behaviour of that call.  ext i
is the random.choice made for the i-th dummy file.  io_fail models the
try/except of _create_dummy_files (lines 80-105): none means the
directory creation and every file write succeed; some k means the k-th
file's write (0-based; k = 0 also covers a failing mkdir) raises,
aborting the loop so that only the previously appended entries
remain. -/
structure RandDraw where
  increment : ℚ
  dl_speed : ℚ
  ul_speed : ℚ
  peers : ℕ
  seeds : ℕ
  num_files : ℕ
  ext : ℕ → String
  io_fail : Option ℕ

/-- How many dummy-file entries the _create_dummy_files loop actually
appends under the draws r: all num_files when every write succeeds,
only those before the failing one otherwise. -/
def RandDraw.files_written (r : RandDraw) : ℕ :=
  match r.io_fail with
  | none => r.num_files
  | some k => min k r.num_files

/-- The ranges the random module is called with in update_stats
(lines 45, 49, 50, 53, 54) and _create_dummy_files (lines 84, 88). -/
def RandDraw.Valid (r : RandDraw) : Prop :=
  1 / 2 ≤ r.increment ∧ r.increment ≤ 3 ∧
  500 ≤ r.dl_speed ∧ r.dl_speed ≤ 5000 ∧
  50 ≤ r.ul_speed ∧ r.ul_speed ≤ 500 ∧
  5 ≤ r.peers ∧ r.peers ≤ 50 ∧
  10 ≤ r.seeds ∧ r.seeds ≤ 100 ∧
  2 ≤ r.num_files ∧ r.num_files ≤ 5 ∧
  ∀ i, r.ext i ∈ extensions

/-- The mutable state of one simulated download: class TorrentInfo,
torrent_manager.py lines 20-39.  The added_time field is omitted (no
claim concerns it); eta is the timedelta in whole seconds, or none. -/
structure TorrentInfo where
  id : String
  name : String
  magnet_link : Option String
  file_path : Option String
  status : Status
  progress : ℚ
  download_speed : ℚ
  upload_speed : ℚ
  peers : ℕ
  seeds : ℕ
  total_size : ℕ
  downloaded : ℤ
  eta : Option ℤ
  files : List FileEntry
  download_path : String
  deriving DecidableEq, Repr

/-- TorrentInfo.__init__ (lines 23-39).  total_size is
random.randint(100, 5000) * 1024 * 1024; the randint draw is the
size_factor parameter. -/
def TorrentInfo.init (torrent_id name : String) (magnet_link file_path : Option String)
    (size_factor : ℕ) : TorrentInfo :=
  { id := torrent_id
    name := name
    magnet_link := magnet_link
    file_path := file_path
    status := .downloading
    progress := 0
    download_speed := 0
    upload_speed := 0
    peers := 0
    seeds := 0
    total_size := size_factor * 1024 * 1024
    downloaded := 0
    eta := none
    files := []
    download_path := DOWNLOAD_DIR ++ "/" ++ name }

/-- The deterministic placeholder text written for one dummy file
(lines 94-96). -/
def dummy_content (name filename : String) : String :=
  "Dummy content for " ++ filename ++ "\n" ++
    "Torrent: " ++ name ++ "\n" ++
    "This is a simulated download.\n"

/-- TorrentInfo._create_dummy_files (lines 78-105): appends one entry
per successfully written dummy file — the i-th (0-based) named
name_part(i+1)(ext), its size the byte size of the text written.  The
whole body runs under a try/except whose handler only reports a
warning, so an I/O failure (r.io_fail) stops the loop early and the
entries appended before it are kept: r.files_written of the intended
r.num_files, possibly zero. -/
def TorrentInfo.create_dummy_files (t : TorrentInfo) (r : RandDraw) : TorrentInfo :=
  { t with
    files := t.files ++ (List.range r.files_written).map (fun i =>
      let filename := t.name ++ "_part" ++ toString (i + 1) ++ r.ext i
      { name := filename
        path := t.download_path ++ "/" ++ filename
        size := (dummy_content t.name filename).utf8ByteSize : FileEntry }) }

/-- TorrentInfo.update_stats (lines 41-76).  int() appears only on
non-negative values here, so it is Rat.floor. -/
def TorrentInfo.update_stats (t : TorrentInfo) (r : RandDraw) : TorrentInfo :=
  if t.status = .downloading then
    let progress := min 100 (t.progress + r.increment)
    let download_speed := r.dl_speed
    let downloaded : ℤ := Rat.floor (progress / 100 * (t.total_size : ℚ))
    let eta : Option ℤ :=
      if 0 < download_speed then
        some (Rat.floor ((((t.total_size : ℚ) - (downloaded : ℚ)) / 1024) / download_speed))
      else t.eta
    let t1 : TorrentInfo :=
      { t with
        progress := progress
        download_speed := download_speed
        upload_speed := r.ul_speed
        peers := r.peers
        seeds := r.seeds
        downloaded := downloaded
        eta := eta }
    if 100 ≤ progress then
      TorrentInfo.create_dummy_files
        { t1 with status := .completed, progress := 100, download_speed := 0, eta := some 0 }
        r
    else t1
  else if t.status = .paused then
    { t with download_speed := 0, upload_speed := 0, eta := none }
  else t

/-- The eta component of TorrentInfo.to_dict (line 120):
str(self.eta) if self.eta else None.  A timedelta is falsy exactly when
it is zero, so a zero eta serializes as absent; we record presence and
the second count, not the rendered string. -/
def TorrentInfo.eta_str (t : TorrentInfo) : Option ℤ :=
  match t.eta with
  | none => none
  | some e => if e = 0 then none else some e

/-! ## The registry (class TorrentManager) -/

/-- The registry self.torrents, a Python dict (insertion-ordered,
unique keys), as an association list. -/
structure TorrentManager where
  torrents : List (String × TorrentInfo)
  deriving DecidableEq, Repr

/-- A freshly constructed TorrentManager (line 130). -/
def TorrentManager.empty : TorrentManager := ⟨[]⟩

/-- Dict lookup self.torrents[id] / self.torrents.get(id). -/
def TorrentManager.find? (m : TorrentManager) (torrent_id : String) : Option TorrentInfo :=
  (m.torrents.find? (fun p => p.1 = torrent_id)).map (fun p => p.2)

/-- Dict key test: torrent_id in self.torrents. -/
def TorrentManager.contains (m : TorrentManager) (torrent_id : String) : Bool :=
  (m.find? torrent_id).isSome

/-- Dict insertion of a key that is not present (the add paths insert
only after the duplicate check). -/
def TorrentManager.insert (m : TorrentManager) (torrent_id : String) (t : TorrentInfo) :
    TorrentManager :=
  ⟨m.torrents ++ [(torrent_id, t)]⟩

/-- In-place mutation of the record stored under torrent_id. -/
def TorrentManager.set (m : TorrentManager) (torrent_id : String) (t : TorrentInfo) :
    TorrentManager :=
  ⟨m.torrents.map (fun p => if p.1 = torrent_id then (p.1, t) else p)⟩

/-- Dict deletion: del self.torrents[torrent_id]. -/
def TorrentManager.erase (m : TorrentManager) (torrent_id : String) : TorrentManager :=
  ⟨m.torrents.filter (fun p => ¬ p.1 = torrent_id)⟩

/-- TorrentManager._generate_torrent_id (lines 140-142):
hashlib.md5(identifier.encode()).hexdigest()[:12].  The md5 hexdigest is
library code, passed in as the hash parameter; the truncation to 12
characters is the code under verification. -/
def TorrentManager.generate_torrent_id (hash : String → String) (identifier : String) :
    String :=
  (hash identifier).take 12

/-- The character list of the literal "dn=". -/
def dnPat : List Char := ['d', 'n', '=']

/-- The character list of the literal "&". -/
def ampPat : List Char := ['&']

/-- The character list of the literal "+". -/
def plusPat : List Char := ['+']

/-- The character list of the literal "%20". -/
def pctPat : List Char := ['%', '2', '0']

/-- The character list of the literal " ". -/
def spacePat : List Char := [' ']

/-- The name-extraction expression of add_magnet (lines 156-157):
magnet_link.split("dn=")[1].split("&")[0] with "+" and "%20" replaced
by spaces (in that order). -/
def magnet_name_chars (link : List Char) : List Char :=
  let raw := (pySplit dnPat link).getD 1 []
  let value := (pySplit ampPat raw).getD 0 []
  pyReplace pctPat spacePat (pyReplace plusPat spacePat value)

/-- The name computed by add_magnet (lines 154-161): the dn= extraction
when "dn=" occurs in the link, otherwise "Torrent_" followed by the
current time formatted at second granularity (the now_name parameter).
With "dn=" present the indexing cannot raise, so the except branch
(line 160-161) is dead. -/
def magnet_name (magnet_link now_name : String) : String :=
  if pyContains dnPat magnet_link.data then
    String.mk (magnet_name_chars magnet_link.data)
  else "Torrent_" ++ now_name

/-- TorrentManager.add_magnet (lines 144-174).  Returns the Python
(success, message, torrent_id) triple and the new registry state. -/
def TorrentManager.add_magnet (m : TorrentManager) (hash : String → String)
    (now_name : String) (size_factor : ℕ) (magnet_link : String) :
    (Bool × String × Option String) × TorrentManager :=
  if ¬ pyStartsWith "magnet:?".data magnet_link.data then
    ((false, "Invalid magnet link format", none), m)
  else
    let name := magnet_name magnet_link now_name
    let torrent_id := TorrentManager.generate_torrent_id hash magnet_link
    if m.contains torrent_id then
      ((false, "Torrent already exists", none), m)
    else
      ((true, "Added torrent: " ++ name, some torrent_id),
        m.insert torrent_id (TorrentInfo.init torrent_id name (some magnet_link) none size_factor))

/-- The character list of the literal ".torrent". -/
def torrentExtPat : List Char := ['.', 't', 'o', 'r', 'r', 'e', 'n', 't']

/-- TorrentManager.add_torrent_file (lines 176-204).  write_ok states
whether writing the uploaded bytes under the download root succeeds;
on a write failure the except branch returns before the record is
created or inserted. -/
def TorrentManager.add_torrent_file (m : TorrentManager) (hash : String → String)
    (size_factor : ℕ) (filename : String) (write_ok : Bool) :
    (Bool × String × Option String) × TorrentManager :=
  if ¬ pyEndsWith torrentExtPat filename.data then
    ((false, "Invalid file type. Please upload a .torrent file", none), m)
  else
    let name := String.mk (pyReplace torrentExtPat [] filename.data)
    let torrent_id := TorrentManager.generate_torrent_id hash filename
    if m.contains torrent_id then
      ((false, "Torrent already exists", none), m)
    else if write_ok then
      ((true, "Added torrent: " ++ name, some torrent_id),
        m.insert torrent_id
          (TorrentInfo.init torrent_id name none (some (DOWNLOAD_DIR ++ "/" ++ filename))
            size_factor))
    else
      ((false, "Error saving torrent file", none), m)

/-- TorrentManager.pause_torrent (lines 206-216). -/
def TorrentManager.pause_torrent (m : TorrentManager) (torrent_id : String) :
    (Bool × String) × TorrentManager :=
  match m.find? torrent_id with
  | none => ((false, "Torrent not found"), m)
  | some torrent =>
    if torrent.status = .completed then
      ((false, "Cannot pause completed torrent"), m)
    else
      ((true, "Paused: " ++ torrent.name),
        m.set torrent_id { torrent with status := .paused })

/-- TorrentManager.resume_torrent (lines 218-228). -/
def TorrentManager.resume_torrent (m : TorrentManager) (torrent_id : String) :
    (Bool × String) × TorrentManager :=
  match m.find? torrent_id with
  | none => ((false, "Torrent not found"), m)
  | some torrent =>
    if ¬ torrent.status = .paused then
      ((false, "Torrent is not paused"), m)
    else
      ((true, "Resumed: " ++ torrent.name),
        m.set torrent_id { torrent with status := .downloading })

/-- Result of delete_torrent, with the registry state and a record of
whether shutil.rmtree was invoked on the download directory. -/
structure DeleteResult where
  success : Bool
  message : String
  mgr : TorrentManager
  rmtree_called : Bool
  deriving Repr

/-- TorrentManager.delete_torrent (lines 230-247).  dir_on_disk models
torrent.download_path.exists(); rmtree_ok models whether
shutil.rmtree succeeds when it is attempted. -/
def TorrentManager.delete_torrent (m : TorrentManager) (torrent_id : String)
    (delete_files dir_on_disk rmtree_ok : Bool) : DeleteResult :=
  match m.find? torrent_id with
  | none => ⟨false, "Torrent not found", m, false⟩
  | some torrent =>
    if delete_files && dir_on_disk then
      if rmtree_ok then
        ⟨true, "Deleted: " ++ torrent.name, m.erase torrent_id, true⟩
      else
        ⟨false, "Error deleting files", m, true⟩
    else
      ⟨true, "Deleted: " ++ torrent.name, m.erase torrent_id, false⟩

/-- TorrentManager.delete_file (lines 269-287).  unlink_ok models
whether the Path.unlink call succeeds when the file is found. -/
def TorrentManager.delete_file (m : TorrentManager) (torrent_id filename : String)
    (unlink_ok : Bool) : (Bool × String) × TorrentManager :=
  match m.find? torrent_id with
  | none => ((false, "Torrent not found"), m)
  | some torrent =>
    match torrent.files.find? (fun f => f.name = filename) with
    | none => ((false, "File not found"), m)
    | some _ =>
      if unlink_ok then
        ((true, "Deleted file: " ++ filename),
          m.set torrent_id
            { torrent with files := torrent.files.eraseP (fun f => f.name = filename) })
      else ((false, "Error deleting file"), m)

/-- TorrentManager.update_all_stats (lines 257-260): one statistics
step for every record, with r supplying each record's random draws. -/
def TorrentManager.update_all_stats (m : TorrentManager) (r : String → RandDraw) :
    TorrentManager :=
  ⟨m.torrents.map (fun p => (p.1, p.2.update_stats (r p.1)))⟩

/-! ## Archive packaging (ui.py, create_zip_from_torrent) -/

/-- The produced archive: the compression constant passed to
zipfile.ZipFile and the ordered entry names written into it. -/
structure ZipArchive where
  compression : String
  entries : List String
  deriving DecidableEq, Repr

/-- create_zip_from_torrent (ui.py lines 315-328): writes, for each
listed file whose on-disk path exists, one entry under
arcname = file_info['name'], into a zipfile.ZIP_DEFLATED archive.
on_disk models Path.exists. -/
def create_zip_from_torrent (t : TorrentInfo) (on_disk : String → Bool) : ZipArchive :=
  { compression := "ZIP_DEFLATED"
    entries := (t.files.filter (fun f => on_disk f.path)).map FileEntry.name }

/-! ## Reachable registry states -/

/-- One externally triggered operation on the registry, each with the
validity constraints the Python runtime guarantees for its random
draws. -/
inductive Step : TorrentManager → TorrentManager → Prop where
  | add_magnet (m : TorrentManager) (hash : String → String) (now_name link : String)
      (size_factor : ℕ) (hsf : 100 ≤ size_factor ∧ size_factor ≤ 5000) :
      Step m (m.add_magnet hash now_name size_factor link).2
  | add_torrent_file (m : TorrentManager) (hash : String → String) (filename : String)
      (size_factor : ℕ) (write_ok : Bool)
      (hsf : 100 ≤ size_factor ∧ size_factor ≤ 5000) :
      Step m (m.add_torrent_file hash size_factor filename write_ok).2
  | pause (m : TorrentManager) (torrent_id : String) :
      Step m (m.pause_torrent torrent_id).2
  | resume (m : TorrentManager) (torrent_id : String) :
      Step m (m.resume_torrent torrent_id).2
  | delete (m : TorrentManager) (torrent_id : String)
      (delete_files dir_on_disk rmtree_ok : Bool) :
      Step m (m.delete_torrent torrent_id delete_files dir_on_disk rmtree_ok).mgr
  | delete_file (m : TorrentManager) (torrent_id filename : String) (unlink_ok : Bool) :
      Step m (m.delete_file torrent_id filename unlink_ok).2
  | update_all_stats (m : TorrentManager) (r : String → RandDraw)
      (hr : ∀ torrent_id, (r torrent_id).Valid) :
      Step m (m.update_all_stats r)

/-- A registry state reachable from a freshly constructed manager. -/
def Reachable (m : TorrentManager) : Prop :=
  Relation.ReflTransGen Step TorrentManager.empty m

/-- The record-level invariant maintained by every operation. -/
structure RecordInv (t : TorrentInfo) : Prop where
  progress_nonneg : 0 ≤ t.progress
  progress_le : t.progress ≤ 100
  progress_iff : t.progress = 100 ↔ t.status = .completed
  not_error : t.status ≠ .error
  eta_completed : t.status = .completed → t.eta = some 0
  eta_zero_speed : t.status ≠ .completed → t.download_speed = 0 → t.eta = none
  eta_formula : t.status = .downloading ∨ t.status = .paused → ∀ e, t.eta = some e →
    e = Rat.floor ((((t.total_size : ℚ) - (t.downloaded : ℚ)) / 1024) / t.download_speed)

/-- The registry-level invariant: every stored record satisfies
RecordInv. -/
def ManagerInv (m : TorrentManager) : Prop :=
  ∀ p ∈ m.torrents, RecordInv p.2

/-! ## Statement-side definitions and concrete instances -/

/-- The decoding step applied to the extracted dn= value: every "+" and
every "%20" replaced by a space, in the order the code applies them. -/
def decode_name (v : List Char) : List Char :=
  pyReplace pctPat spacePat (pyReplace plusPat spacePat v)

/-- Modelled from the claim wording (spec section 4.1): the display name
is "the value extracted up to the next ampersand" after the dn= marker,
with "+" and "%20" decoded to spaces — that is, everything after the
first occurrence of "dn=", truncated at the first following ampersand
only, then decoded. -/
def claim_display_name (link : String) : String :=
  match findSplit dnPat link.data with
  | some pr => String.mk (decode_name (pr.2.takeWhile (fun c => ¬ c = '&')))
  | none => ""

/-- The status and serialized eta of a record, the components claim C8
constrains. -/
def status_and_eta (t : TorrentInfo) : Status × Option ℤ :=
  (t.status, t.eta_str)

/-- A stand-in for the md5 hexdigest, used by the concrete scenarios. -/
def sample_hash : String → String := fun _ => "aaaaaaaaaaaa"

/-- The id sample_hash induces. -/
def sample_id : String := "aaaaaaaaaaaa"

/-- The magnet link of the spec's concrete scenario. -/
def sample_link : String := "magnet:?xt=urn:btih:ABC&dn=My+Movie"

/-- The registry after adding sample_link to a fresh manager. -/
def sample_mgr : TorrentManager :=
  (TorrentManager.empty.add_magnet sample_hash "20250101_120000" 100 sample_link).2

/-- The record sample_mgr holds. -/
def sample_rec : TorrentInfo :=
  TorrentInfo.init sample_id "My Movie" (some sample_link) none 100

/-- sample_rec advanced to 99 percent progress, still downloading. -/
def sample_rec99 : TorrentInfo := { sample_rec with progress := 99 }

/-- A concrete valid batch of random draws with all file writes
succeeding. -/
def sample_draw : RandDraw :=
  { increment := 2, dl_speed := 1000, ul_speed := 100, peers := 10, seeds := 20,
    num_files := 3, ext := fun _ => ".mp4", io_fail := none }

/-- The same draws in an environment where already the directory
creation (or the very first write) of _create_dummy_files raises. -/
def fail_draw : RandDraw := { sample_draw with io_fail := some 0 }

/-- Hash stand-in for the eta counterexample run. -/
def cex_hash : String → String := fun _ => "cccccccccccc"

/-- The id cex_hash induces. -/
def cex_id : String := "cccccccccccc"

/-- The magnet link of the eta counterexample run. -/
def cex_link : String := "magnet:?dn=M"

/-- Draws for the eta counterexample run: one stats step at speed 1024
KB/s with a 1 percent increment. -/
def cex_draw : RandDraw :=
  { increment := 1, dl_speed := 1024, ul_speed := 100, peers := 10, seeds := 20,
    num_files := 3, ext := fun _ => ".mp4", io_fail := none }

/-- Counterexample run, state 1: fresh manager plus one magnet add. -/
def cex_mgr1 : TorrentManager :=
  (TorrentManager.empty.add_magnet cex_hash "ts" 100 cex_link).2

/-- Counterexample run, state 2: after one stats update (the record is
downloading at 1 percent with a positive eta). -/
def cex_mgr2 : TorrentManager := cex_mgr1.update_all_stats (fun _ => cex_draw)

/-- Counterexample run, state 3: the record is paused; pause_torrent
does not touch eta. -/
def cex_mgr3 : TorrentManager := (cex_mgr2.pause_torrent cex_id).2

/-- The record cex_mgr1 holds. -/
def cex_rec1 : TorrentInfo := TorrentInfo.init cex_id "M" (some cex_link) none 100

/-- The record cex_mgr2 holds: one downloading step of cex_rec1. -/
def cex_rec2 : TorrentInfo :=
  { cex_rec1 with
    progress := 1
    download_speed := 1024
    upload_speed := 100
    peers := 10
    seeds := 20
    downloaded := 1048576
    eta := some 99 }

/-- The record cex_mgr3 holds: cex_rec2 paused, eta untouched. -/
def cex_rec3 : TorrentInfo := { cex_rec2 with status := .paused }

/-- A record with two listed files, for the archive scenarios. -/
def zip_rec : TorrentInfo :=
  { sample_rec with
    files := [⟨"a.mp4", "/tmp/downloads/My Movie/a.mp4", 10⟩,
      ⟨"b.mkv", "/tmp/downloads/My Movie/b.mkv", 20⟩] }

/-- On-disk oracle for the archive scenario: every path exists except
the second listed file. -/
def zip_on_disk : String → Bool := fun p => ¬ p = "/tmp/downloads/My Movie/b.mkv"

/-! ## Arithmetic helpers -/

theorem rat_floor_eq (z : ℤ) (q : ℚ) (h1 : (z : ℚ) ≤ q) (h2 : q < z + 1) :
    Rat.floor q = z := by
  have hub : Rat.floor q ≤ z := by
    by_contra hc
    have hz1 : z + 1 ≤ Rat.floor q := by omega
    have := Rat.le_floor.mp hz1
    push_cast at this
    linarith
  have hlb : z ≤ Rat.floor q := Rat.le_floor.mpr h1
  omega

theorem rat_floor_natCast (n : ℕ) : Rat.floor ((n : ℕ) : ℚ) = n := by
  refine rat_floor_eq n _ (by norm_num) (by norm_num)

/-! ## Shape lemmas for the statistics step -/

theorem update_stats_of_completed (t : TorrentInfo) (r : RandDraw)
    (hs : t.status = .completed) : t.update_stats r = t := by
  simp [TorrentInfo.update_stats, hs]

theorem update_stats_of_error (t : TorrentInfo) (r : RandDraw)
    (hs : t.status = .error) : t.update_stats r = t := by
  simp [TorrentInfo.update_stats, hs]

theorem update_stats_of_paused (t : TorrentInfo) (r : RandDraw)
    (hs : t.status = .paused) :
    t.update_stats r = { t with download_speed := 0, upload_speed := 0, eta := none } := by
  simp [TorrentInfo.update_stats, hs]

theorem update_stats_of_downloading_midway (t : TorrentInfo) (r : RandDraw)
    (hs : t.status = .downloading) (hlt : t.progress + r.increment < 100) :
    t.update_stats r =
      { t with
        progress := t.progress + r.increment
        download_speed := r.dl_speed
        upload_speed := r.ul_speed
        peers := r.peers
        seeds := r.seeds
        downloaded := Rat.floor ((t.progress + r.increment) / 100 * (t.total_size : ℚ))
        eta :=
          if 0 < r.dl_speed then
            some (Rat.floor ((((t.total_size : ℚ) -
              ((Rat.floor ((t.progress + r.increment) / 100 * (t.total_size : ℚ)) : ℤ) : ℚ)) /
                1024) / r.dl_speed))
          else t.eta } := by
  have hmin : min (100 : ℚ) (t.progress + r.increment) = t.progress + r.increment :=
    min_eq_right (le_of_lt hlt)
  have hnot : ¬ (100 : ℚ) ≤ t.progress + r.increment := not_le.mpr hlt
  simp [TorrentInfo.update_stats, hs, hmin, hnot]

theorem update_stats_of_downloading_complete (t : TorrentInfo) (r : RandDraw)
    (hs : t.status = .downloading) (hge : 100 ≤ t.progress + r.increment) :
    t.update_stats r =
      TorrentInfo.create_dummy_files
        { t with
          progress := 100
          download_speed := 0
          upload_speed := r.ul_speed
          peers := r.peers
          seeds := r.seeds
          downloaded := (t.total_size : ℤ)
          eta := some 0
          status := .completed } r := by
  have hmin : min (100 : ℚ) (t.progress + r.increment) = 100 := min_eq_left hge
  simp [TorrentInfo.update_stats, hs, hmin, hge, rat_floor_natCast]


/-! ## Record invariant preservation -/

theorem recordInv_init (torrent_id name : String) (magnet_link file_path : Option String)
    (size_factor : ℕ) :
    RecordInv (TorrentInfo.init torrent_id name magnet_link file_path size_factor) := by
  constructor <;> simp [TorrentInfo.init]

theorem recordInv_files (t : TorrentInfo) (fs : List FileEntry) (h : RecordInv t) :
    RecordInv { t with files := fs } :=
  ⟨h.progress_nonneg, h.progress_le, h.progress_iff, h.not_error, h.eta_completed,
    h.eta_zero_speed, h.eta_formula⟩

theorem recordInv_pause (t : TorrentInfo) (h : RecordInv t) (hne : t.status ≠ .completed) :
    RecordInv { t with status := .paused } := by
  have hp : t.progress ≠ 100 := fun hc => hne (h.progress_iff.mp hc)
  constructor
  · exact h.progress_nonneg
  · exact h.progress_le
  · simp [hp]
  · simp
  · simp
  · intro _ hspeed
    exact h.eta_zero_speed hne hspeed
  · intro _ e he
    cases hst : t.status with
    | downloading => exact h.eta_formula (Or.inl hst) e he
    | paused => exact h.eta_formula (Or.inr hst) e he
    | completed => exact absurd hst hne
    | error => exact absurd hst h.not_error

theorem recordInv_resume (t : TorrentInfo) (h : RecordInv t) (hp : t.status = .paused) :
    RecordInv { t with status := .downloading } := by
  have hne : t.status ≠ .completed := by rw [hp]; simp
  have hp100 : t.progress ≠ 100 := fun hc => hne (h.progress_iff.mp hc)
  constructor
  · exact h.progress_nonneg
  · exact h.progress_le
  · simp [hp100]
  · simp
  · simp
  · intro _ hspeed
    exact h.eta_zero_speed hne hspeed
  · intro _ e he
    exact h.eta_formula (Or.inr hp) e he

theorem recordInv_update_stats (t : TorrentInfo) (r : RandDraw) (h : RecordInv t)
    (hv : r.Valid) : RecordInv (t.update_stats r) := by
  obtain ⟨hinc1, hinc2, hdl1, hdl2, -⟩ := hv
  cases hst : t.status with
  | completed => rw [update_stats_of_completed t r hst]; exact h
  | error => rw [update_stats_of_error t r hst]; exact h
  | paused =>
    rw [update_stats_of_paused t r hst]
    have hne : t.status ≠ .completed := by rw [hst]; simp
    have hp100 : t.progress ≠ 100 := fun hc => hne (h.progress_iff.mp hc)
    constructor <;> simp [hst, hp100, h.progress_nonneg, h.progress_le]
  | downloading =>
    rcases lt_or_le (t.progress + r.increment) 100 with hlt | hge
    · rw [update_stats_of_downloading_midway t r hst hlt]
      have hdlpos : (0 : ℚ) < r.dl_speed := by linarith
      have hp0 := h.progress_nonneg
      have hp100 : t.progress + r.increment ≠ 100 := ne_of_lt hlt
      constructor
      · show (0 : ℚ) ≤ t.progress + r.increment
        linarith
      · show t.progress + r.increment ≤ (100 : ℚ)
        linarith
      · simp [hst, hp100]
      · simp [hst]
      · simp [hst]
      · intro _ hspeed
        exfalso
        simp only at hspeed
        linarith
      · intro _ e he
        simp only [hdlpos, if_pos] at he
        injection he with he
        exact he.symm
    · rw [update_stats_of_downloading_complete t r hst hge]
      constructor <;> simp [TorrentInfo.create_dummy_files]

/-! ## Registry lookup lemmas -/

theorem list_find?_map_key (g : String × TorrentInfo → TorrentInfo) (q : String) :
    ∀ l : List (String × TorrentInfo),
      ((l.map (fun p => (p.1, g p))).find? (fun p => p.1 = q)) =
        (l.find? (fun p => p.1 = q)).map (fun p => (p.1, g p))
  | [] => rfl
  | p :: l => by
    by_cases hp : p.1 = q
    · simp [hp]
    · simp only [List.map_cons]
      rw [List.find?_cons_of_neg _ (by simpa using hp),
        List.find?_cons_of_neg _ (by simpa using hp)]
      exact list_find?_map_key g q l

theorem managerInv_find? (m : TorrentManager) (torrent_id : String) (t : TorrentInfo)
    (hm : ManagerInv m) (h : m.find? torrent_id = some t) : RecordInv t := by
  obtain ⟨p, hp, hpt⟩ := Option.map_eq_some'.mp h
  exact hpt ▸ hm p (List.mem_of_find?_eq_some hp)

theorem find?_key (m : TorrentManager) (q : String) (p : String × TorrentInfo)
    (h : m.torrents.find? (fun p => p.1 = q) = some p) : p.1 = q := by
  simpa using List.find?_some h

theorem set_find?_self (m : TorrentManager) (torrent_id : String) (t0 t : TorrentInfo)
    (h : m.find? torrent_id = some t0) :
    (m.set torrent_id t).find? torrent_id = some t := by
  obtain ⟨p, hp, -⟩ := Option.map_eq_some'.mp h
  have hkey : p.1 = torrent_id := find?_key m torrent_id p hp
  have hmap : m.torrents.map (fun p => if p.1 = torrent_id then (p.1, t) else p) =
      m.torrents.map (fun p => (p.1, if p.1 = torrent_id then t else p.2)) := by
    apply List.map_congr_left
    intro x _
    by_cases hx : x.1 = torrent_id <;> simp [hx]
  rw [TorrentManager.set, TorrentManager.find?]
  show ((m.torrents.map (fun p => if p.1 = torrent_id then (p.1, t) else p)).find?
    (fun p => p.1 = torrent_id)).map (fun p => p.2) = some t
  rw [hmap, list_find?_map_key (fun p => if p.1 = torrent_id then t else p.2) torrent_id, hp]
  simp [hkey]

theorem set_find?_ne (m : TorrentManager) (torrent_id j : String) (t : TorrentInfo)
    (h : ¬ j = torrent_id) :
    (m.set torrent_id t).find? j = m.find? j := by
  have hmap : m.torrents.map (fun p => if p.1 = torrent_id then (p.1, t) else p) =
      m.torrents.map (fun p => (p.1, if p.1 = torrent_id then t else p.2)) := by
    apply List.map_congr_left
    intro x _
    by_cases hx : x.1 = torrent_id <;> simp [hx]
  rw [TorrentManager.set, TorrentManager.find?]
  show ((m.torrents.map (fun p => if p.1 = torrent_id then (p.1, t) else p)).find?
    (fun p => p.1 = j)).map (fun p => p.2) = _
  rw [hmap, list_find?_map_key (fun p => if p.1 = torrent_id then t else p.2) j]
  rw [TorrentManager.find?]
  cases hfind : m.torrents.find? (fun p => p.1 = j) with
  | none => rfl
  | some p =>
    have hkey : p.1 = j := find?_key m j p hfind
    simp [hkey, h]

theorem erase_find?_self (m : TorrentManager) (torrent_id : String) :
    (m.erase torrent_id).find? torrent_id = none := by
  rw [TorrentManager.erase, TorrentManager.find?]
  have : (m.torrents.filter (fun p => ¬ p.1 = torrent_id)).find?
      (fun p => p.1 = torrent_id) = none := by
    rw [List.find?_eq_none]
    intro x hx
    have := (List.mem_filter.mp hx).2
    simpa using this
  rw [this]
  rfl

theorem erase_find?_ne (m : TorrentManager) (torrent_id j : String) (h : ¬ j = torrent_id) :
    (m.erase torrent_id).find? j = m.find? j := by
  rw [TorrentManager.erase, TorrentManager.find?, TorrentManager.find?]
  congr 1
  induction m.torrents with
  | nil => rfl
  | cons p l ih =>
    by_cases hp : p.1 = torrent_id
    · have hpj : ¬ p.1 = j := by rw [hp]; intro hc; exact h hc.symm
      rw [List.filter_cons_of_neg (by simpa using hp),
        List.find?_cons_of_neg _ (by simpa using hpj)]
      exact ih
    · rw [List.filter_cons_of_pos (by simpa using hp)]
      by_cases hpj : p.1 = j
      · rw [List.find?_cons_of_pos _ (by simpa using hpj),
          List.find?_cons_of_pos _ (by simpa using hpj)]
      · rw [List.find?_cons_of_neg _ (by simpa using hpj),
          List.find?_cons_of_neg _ (by simpa using hpj)]
        exact ih

theorem insert_find?_self (m : TorrentManager) (torrent_id : String) (t : TorrentInfo)
    (h : m.find? torrent_id = none) :
    (m.insert torrent_id t).find? torrent_id = some t := by
  rw [TorrentManager.find?] at h
  have hnone : m.torrents.find? (fun p => p.1 = torrent_id) = none := by
    cases hfind : m.torrents.find? (fun p => p.1 = torrent_id) with
    | none => rfl
    | some p => rw [hfind] at h; simp at h
  rw [TorrentManager.insert, TorrentManager.find?, List.find?_append, hnone]
  simp

theorem update_all_stats_find? (m : TorrentManager) (r : String → RandDraw) (q : String) :
    (m.update_all_stats r).find? q = (m.find? q).map (fun t => t.update_stats (r q)) := by
  rw [TorrentManager.update_all_stats, TorrentManager.find?]
  show ((m.torrents.map (fun p => (p.1, p.2.update_stats (r p.1)))).find?
    (fun p => p.1 = q)).map (fun p => p.2) = _
  rw [list_find?_map_key (fun p => p.2.update_stats (r p.1)) q, TorrentManager.find?]
  cases hfind : m.torrents.find? (fun p => p.1 = q) with
  | none => rfl
  | some p =>
    have hkey : p.1 = q := find?_key m q p hfind
    simp [hkey]

/-! ## Manager invariant preservation -/

theorem managerInv_empty : ManagerInv TorrentManager.empty := by
  intro p hp
  simp [TorrentManager.empty] at hp

theorem managerInv_add_magnet (m : TorrentManager) (hash : String → String)
    (now_name link : String) (sf : ℕ) (hm : ManagerInv m) :
    ManagerInv (m.add_magnet hash now_name sf link).2 := by
  simp only [TorrentManager.add_magnet]
  split
  · exact hm
  · split
    · exact hm
    · intro p hp
      simp only [TorrentManager.insert] at hp
      rcases List.mem_append.mp hp with h | h
      · exact hm p h
      · rw [List.mem_singleton.mp h]
        exact recordInv_init _ _ _ _ _

theorem managerInv_add_torrent_file (m : TorrentManager) (hash : String → String)
    (filename : String) (sf : ℕ) (write_ok : Bool) (hm : ManagerInv m) :
    ManagerInv (m.add_torrent_file hash sf filename write_ok).2 := by
  simp only [TorrentManager.add_torrent_file]
  split
  · exact hm
  · split
    · exact hm
    · split
      · intro p hp
        simp only [TorrentManager.insert] at hp
        rcases List.mem_append.mp hp with h | h
        · exact hm p h
        · rw [List.mem_singleton.mp h]
          exact recordInv_init _ _ _ _ _
      · exact hm

theorem managerInv_set (m : TorrentManager) (torrent_id : String) (t : TorrentInfo)
    (hm : ManagerInv m) (ht : RecordInv t) : ManagerInv (m.set torrent_id t) := by
  intro p hp
  simp only [TorrentManager.set] at hp
  rcases List.mem_map.mp hp with ⟨q, hq, hfq⟩
  by_cases hqid : q.1 = torrent_id
  · rw [if_pos hqid] at hfq
    rw [← hfq]
    exact ht
  · rw [if_neg hqid] at hfq
    rw [← hfq]
    exact hm q hq

theorem managerInv_pause (m : TorrentManager) (torrent_id : String) (hm : ManagerInv m) :
    ManagerInv (m.pause_torrent torrent_id).2 := by
  simp only [TorrentManager.pause_torrent]
  split
  · exact hm
  · rename_i torrent hfind
    split
    · exact hm
    · rename_i hcomp
      exact managerInv_set m torrent_id _ hm
        (recordInv_pause torrent (managerInv_find? m torrent_id torrent hm hfind) hcomp)

theorem managerInv_resume (m : TorrentManager) (torrent_id : String) (hm : ManagerInv m) :
    ManagerInv (m.resume_torrent torrent_id).2 := by
  simp only [TorrentManager.resume_torrent]
  split
  · exact hm
  · rename_i torrent hfind
    split
    · exact hm
    · rename_i hpaused
      rw [not_not] at hpaused
      exact managerInv_set m torrent_id _ hm
        (recordInv_resume torrent (managerInv_find? m torrent_id torrent hm hfind) hpaused)

theorem managerInv_erase (m : TorrentManager) (torrent_id : String) (hm : ManagerInv m) :
    ManagerInv (m.erase torrent_id) := by
  intro p hp
  simp only [TorrentManager.erase] at hp
  exact hm p (List.mem_filter.mp hp).1

theorem managerInv_delete (m : TorrentManager) (torrent_id : String)
    (delete_files dir_on_disk rmtree_ok : Bool) (hm : ManagerInv m) :
    ManagerInv (m.delete_torrent torrent_id delete_files dir_on_disk rmtree_ok).mgr := by
  simp only [TorrentManager.delete_torrent]
  split
  · exact hm
  · split
    · split
      · exact managerInv_erase m torrent_id hm
      · exact hm
    · exact managerInv_erase m torrent_id hm

theorem managerInv_delete_file (m : TorrentManager) (torrent_id filename : String)
    (unlink_ok : Bool) (hm : ManagerInv m) :
    ManagerInv (m.delete_file torrent_id filename unlink_ok).2 := by
  simp only [TorrentManager.delete_file]
  split
  · exact hm
  · rename_i torrent hfind
    split
    · exact hm
    · split
      · exact managerInv_set m torrent_id _ hm
          (recordInv_files torrent _ (managerInv_find? m torrent_id torrent hm hfind))
      · exact hm

theorem managerInv_update_all_stats (m : TorrentManager) (r : String → RandDraw)
    (hr : ∀ torrent_id, (r torrent_id).Valid) (hm : ManagerInv m) :
    ManagerInv (m.update_all_stats r) := by
  intro p hp
  simp only [TorrentManager.update_all_stats] at hp
  rcases List.mem_map.mp hp with ⟨q, hq, hfq⟩
  rw [← hfq]
  exact recordInv_update_stats q.2 (r q.1) (hm q hq) (hr q.1)

theorem step_managerInv (m m' : TorrentManager) (hs : Step m m') (hm : ManagerInv m) :
    ManagerInv m' := by
  cases hs with
  | add_magnet hash now_name link sf hsf => exact managerInv_add_magnet m hash now_name link sf hm
  | add_torrent_file hash filename sf write_ok hsf =>
    exact managerInv_add_torrent_file m hash filename sf write_ok hm
  | pause torrent_id => exact managerInv_pause m torrent_id hm
  | resume torrent_id => exact managerInv_resume m torrent_id hm
  | delete torrent_id df dd ro => exact managerInv_delete m torrent_id df dd ro hm
  | delete_file torrent_id filename ok => exact managerInv_delete_file m torrent_id filename ok hm
  | update_all_stats r hr => exact managerInv_update_all_stats m r hr hm

theorem reachable_managerInv (m : TorrentManager) (h : Reachable m) : ManagerInv m := by
  induction h with
  | refl => exact managerInv_empty
  | tail _ hstep ih => exact step_managerInv _ _ hstep ih

/-! ## Concrete scenario infrastructure -/

theorem sample_mgr_reachable : Reachable sample_mgr :=
  Relation.ReflTransGen.single
    (Step.add_magnet TorrentManager.empty sample_hash "20250101_120000" sample_link 100
      ⟨by norm_num, by norm_num⟩)

theorem sample_mgr_torrents : sample_mgr.torrents = [(sample_id, sample_rec)] := by decide

theorem sample_draw_valid : sample_draw.Valid := by
  refine ⟨?_, ?_, ?_, ?_, ?_, ?_, ?_, ?_, ?_, ?_, ?_, ?_, fun i => ?_⟩ <;>
    norm_num [sample_draw, extensions]

/-! ## Claim C1 -/

/-- C1: for every reachable registry state and every record it stores,
progress equals 100 exactly when status is completed.  Reachability is
closed under record creation, updateAllStats, pause, resume (and
delete, file deletion, file-based add), so every operation preserves
the equivalence. -/
theorem C1_progress_iff_completed (m : TorrentManager) (hm : Reachable m)
    (p : String × TorrentInfo) (hp : p ∈ m.torrents) :
    p.2.progress = 100 ↔ p.2.status = .completed :=
  (reachable_managerInv m hm p hp).progress_iff

/-- C1 witness: the equivalence holds for the record of the concrete
reachable one-record registry sample_mgr. -/
theorem C1_witness :
    (sample_id, sample_rec).2.progress = 100 ↔ (sample_id, sample_rec).2.status = .completed :=
  C1_progress_iff_completed sample_mgr sample_mgr_reachable (sample_id, sample_rec)
    (by rw [sample_mgr_torrents]; exact List.mem_singleton.mpr rfl)

/-! ## Claim C10 -/

/-- C10: the error status is unreachable: every record of every
reachable registry state has status downloading, paused or completed,
never error. -/
theorem C10_error_unreachable (m : TorrentManager) (hm : Reachable m)
    (p : String × TorrentInfo) (hp : p ∈ m.torrents) :
    p.2.status ≠ .error ∧
      (p.2.status = .downloading ∨ p.2.status = .paused ∨ p.2.status = .completed) := by
  have h := (reachable_managerInv m hm p hp).not_error
  refine ⟨h, ?_⟩
  cases hst : p.2.status <;> simp_all

/-- C10 witness: the concrete reachable registry sample_mgr stores a
record whose status is not error. -/
theorem C10_witness :
    (sample_id, sample_rec).2.status ≠ .error ∧
      ((sample_id, sample_rec).2.status = .downloading ∨
        (sample_id, sample_rec).2.status = .paused ∨
        (sample_id, sample_rec).2.status = .completed) :=
  C10_error_unreachable sample_mgr sample_mgr_reachable (sample_id, sample_rec)
    (by rw [sample_mgr_torrents]; exact List.mem_singleton.mpr rfl)

/-! ## Eta counterexample run -/

theorem cex_draw_valid : cex_draw.Valid := by
  refine ⟨?_, ?_, ?_, ?_, ?_, ?_, ?_, ?_, ?_, ?_, ?_, ?_, fun i => ?_⟩ <;>
    norm_num [cex_draw, extensions]

theorem cex_mgr1_torrents : cex_mgr1.torrents = [(cex_id, cex_rec1)] := by decide

theorem cex_step : cex_rec1.update_stats cex_draw = cex_rec2 := by
  have hlt : cex_rec1.progress + cex_draw.increment < 100 := by
    norm_num [cex_rec1, TorrentInfo.init, cex_draw]
  rw [update_stats_of_downloading_midway cex_rec1 cex_draw rfl hlt]
  have harg : (cex_rec1.progress + cex_draw.increment) / 100 * (cex_rec1.total_size : ℚ) =
      1048576 := by
    norm_num [cex_rec1, TorrentInfo.init, cex_draw]
  have hfl1 : Rat.floor ((cex_rec1.progress + cex_draw.increment) / 100 *
      (cex_rec1.total_size : ℚ)) = 1048576 := by
    rw [harg]
    exact rat_floor_eq 1048576 _ (by norm_num) (by norm_num)
  rw [hfl1]
  have harg2 : (((cex_rec1.total_size : ℚ) - ((1048576 : ℤ) : ℚ)) / 1024) / cex_draw.dl_speed =
      99 := by
    norm_num [cex_rec1, TorrentInfo.init, cex_draw]
  rw [harg2]
  have hfl2 : Rat.floor (99 : ℚ) = 99 :=
    rat_floor_eq 99 _ (by norm_num) (by norm_num)
  have hpos : (0 : ℚ) < cex_draw.dl_speed := by norm_num [cex_draw]
  rw [if_pos hpos, hfl2]
  norm_num [cex_rec2, cex_rec1, cex_draw, TorrentInfo.init]

theorem cex_mgr2_torrents : cex_mgr2.torrents = [(cex_id, cex_rec2)] := by
  rw [cex_mgr2, TorrentManager.update_all_stats, cex_mgr1_torrents]
  simp [cex_step]

theorem cex_mgr2_find : cex_mgr2.find? cex_id = some cex_rec2 := by
  rw [TorrentManager.find?, cex_mgr2_torrents]
  simp

theorem cex_mgr3_torrents : cex_mgr3.torrents = [(cex_id, cex_rec3)] := by
  rw [cex_mgr3, TorrentManager.pause_torrent, cex_mgr2_find]
  show (cex_mgr2.set cex_id { cex_rec2 with status := Status.paused }).torrents =
    [(cex_id, cex_rec3)]
  rw [TorrentManager.set, cex_mgr2_torrents]
  simp [cex_rec3]

theorem cex_mgr3_reachable : Reachable cex_mgr3 := by
  have h1 : Step TorrentManager.empty cex_mgr1 :=
    Step.add_magnet TorrentManager.empty cex_hash "ts" cex_link 100 ⟨by norm_num, by norm_num⟩
  have h2 : Step cex_mgr1 cex_mgr2 :=
    Step.update_all_stats cex_mgr1 (fun _ => cex_draw) (fun _ => cex_draw_valid)
  have h3 : Step cex_mgr2 cex_mgr3 := Step.pause cex_mgr2 cex_id
  exact Relation.ReflTransGen.tail
    (Relation.ReflTransGen.tail (Relation.ReflTransGen.single h1) h2) h3

/-! ## Claim C8 -/

/-- C8 counterexample: cex_mgr3 is reachable (add a magnet, run one
stats update, then pause) and stores a record whose status is paused —
not downloading — while its serialized eta is still present (99
seconds): pause_torrent does not clear eta, so "eta is absent whenever
status is not downloading" fails on reachable states. -/
theorem C8_counterexample :
    Reachable cex_mgr3 ∧
    cex_mgr3.find? cex_id = some cex_rec3 ∧
    status_and_eta cex_rec3 = (Status.paused, some 99) ∧
    ¬ cex_rec3.status = Status.downloading ∧
    ¬ cex_rec3.eta_str = none := by
  refine ⟨cex_mgr3_reachable, ?_, by decide, by decide, by decide⟩
  rw [TorrentManager.find?, cex_mgr3_torrents]
  simp

/-- C8 amended: for every record of a reachable registry state, the
serialized eta is absent whenever the download speed is zero, and
absent whenever status is completed (the stored field is then a zero
duration, which serializes as absent); for a downloading record a
present eta is the floor of remaining-KiB divided by speed.  A record
that was paused after a stats update keeps the eta of that update until
the next one, so nothing can be said for paused records with nonzero
speed. -/
theorem C8_eta_amended (m : TorrentManager) (hm : Reachable m)
    (p : String × TorrentInfo) (hp : p ∈ m.torrents) :
    (p.2.download_speed = 0 → p.2.eta_str = none) ∧
    (p.2.status = .completed → p.2.eta_str = none) ∧
    (p.2.status = .downloading → ∀ e, p.2.eta = some e →
      e = Rat.floor ((((p.2.total_size : ℚ) - (p.2.downloaded : ℚ)) / 1024) /
        p.2.download_speed)) := by
  have h := reachable_managerInv m hm p hp
  refine ⟨?_, ?_, ?_⟩
  · intro hs
    by_cases hc : p.2.status = .completed
    · simp [TorrentInfo.eta_str, h.eta_completed hc]
    · simp [TorrentInfo.eta_str, h.eta_zero_speed hc hs]
  · intro hc
    simp [TorrentInfo.eta_str, h.eta_completed hc]
  · intro hd e he
    exact h.eta_formula (Or.inl hd) e he

/-- C8 witness: the amended statement at the record of the concrete
reachable registry sample_mgr — a fresh record with zero speed — whose
serialized eta is therefore absent. -/
theorem C8_witness : (sample_id, sample_rec).2.eta_str = none :=
  (C8_eta_amended sample_mgr sample_mgr_reachable (sample_id, sample_rec)
    (by rw [sample_mgr_torrents]; exact List.mem_singleton.mpr rfl)).1 rfl

/-! ## Progress monotonicity helpers -/

theorem update_stats_progress_facts (t : TorrentInfo) (r : RandDraw) (hv : r.Valid)
    (h0 : 0 ≤ t.progress) (h1 : t.progress ≤ 100) :
    t.progress ≤ (t.update_stats r).progress ∧
    0 ≤ (t.update_stats r).progress ∧ (t.update_stats r).progress ≤ 100 := by
  obtain ⟨hi1, hi2, -⟩ := hv
  cases hst : t.status with
  | completed =>
    rw [update_stats_of_completed t r hst]
    exact ⟨le_refl _, h0, h1⟩
  | error =>
    rw [update_stats_of_error t r hst]
    exact ⟨le_refl _, h0, h1⟩
  | paused =>
    rw [update_stats_of_paused t r hst]
    exact ⟨le_refl _, h0, h1⟩
  | downloading =>
    rcases lt_or_le (t.progress + r.increment) 100 with hlt | hge
    · rw [update_stats_of_downloading_midway t r hst hlt]
      refine ⟨?_, ?_, ?_⟩
      · show t.progress ≤ t.progress + r.increment
        linarith
      · show (0 : ℚ) ≤ t.progress + r.increment
        linarith
      · show t.progress + r.increment ≤ (100 : ℚ)
        linarith
    · rw [update_stats_of_downloading_complete t r hst hge]
      refine ⟨?_, ?_, ?_⟩ <;> simp [TorrentInfo.create_dummy_files, h1]

theorem foldl_update_stats_progress (rs : List RandDraw) (t : TorrentInfo)
    (hall : ∀ x ∈ rs, RandDraw.Valid x) (h0 : 0 ≤ t.progress) (h1 : t.progress ≤ 100) :
    t.progress ≤ (rs.foldl TorrentInfo.update_stats t).progress ∧
    0 ≤ (rs.foldl TorrentInfo.update_stats t).progress ∧
    (rs.foldl TorrentInfo.update_stats t).progress ≤ 100 := by
  induction rs generalizing t with
  | nil => exact ⟨le_refl _, h0, h1⟩
  | cons r rs ih =>
    have hstep := update_stats_progress_facts t r (hall r (List.mem_cons_self r rs)) h0 h1
    have hrest := ih (t.update_stats r) (fun x hx => hall x (List.mem_cons_of_mem r hx))
      hstep.2.1 hstep.2.2
    exact ⟨le_trans hstep.1 hrest.1, hrest.2⟩

/-! ## Claim C3 -/

/-- C3: one statistics step of a downloading record with in-range draws
sets progress to the old progress plus the increment, clamped at 100 —
never a decrease — and keeps it inside the unit-to-hundred range; hence
progress never decreases over any sequence of updateAllStats steps. -/
theorem C3_progress_monotone (t : TorrentInfo) (r : RandDraw) (hs : t.status = .downloading)
    (hv : r.Valid) (h0 : 0 ≤ t.progress) (h1 : t.progress ≤ 100) :
    (t.update_stats r).progress = min 100 (t.progress + r.increment) ∧
    t.progress ≤ (t.update_stats r).progress ∧
    0 ≤ (t.update_stats r).progress ∧ (t.update_stats r).progress ≤ 100 ∧
    ∀ rs : List RandDraw, (∀ x ∈ rs, RandDraw.Valid x) →
      t.progress ≤ (rs.foldl TorrentInfo.update_stats t).progress := by
  have hfacts := update_stats_progress_facts t r hv h0 h1
  refine ⟨?_, hfacts.1, hfacts.2.1, hfacts.2.2, ?_⟩
  · rcases lt_or_le (t.progress + r.increment) 100 with hlt | hge
    · rw [update_stats_of_downloading_midway t r hs hlt]
      show t.progress + r.increment = min 100 (t.progress + r.increment)
      rw [min_eq_right (le_of_lt hlt)]
    · rw [update_stats_of_downloading_complete t r hs hge]
      show (100 : ℚ) = min 100 (t.progress + r.increment)
      rw [min_eq_left hge]
  · intro rs hall
    exact (foldl_update_stats_progress rs t hall h0 h1).1

/-- C3 witness: the single-step part of C3 at the concrete fresh record
sample_rec and draws sample_draw. -/
theorem C3_witness :
    (sample_rec.update_stats sample_draw).progress =
      min 100 (sample_rec.progress + sample_draw.increment) ∧
    sample_rec.progress ≤ (sample_rec.update_stats sample_draw).progress ∧
    0 ≤ (sample_rec.update_stats sample_draw).progress ∧
    (sample_rec.update_stats sample_draw).progress ≤ 100 := by
  have h := C3_progress_monotone sample_rec sample_draw rfl sample_draw_valid
    (by norm_num [sample_rec, TorrentInfo.init]) (by norm_num [sample_rec, TorrentInfo.init])
  exact ⟨h.1, h.2.1, h.2.2.1, h.2.2.2.1⟩

/-! ## Claim C2 -/

/-- C2 counterexample: the draws fail_draw are in-range, and on the
downloading record sample_rec99 (99 percent, empty file list) the stats
update reaches 100 and completes the record — but, its mkdir/first
write having raised inside the try/except of _create_dummy_files, the
file list stays empty: not the claimed non-empty 2-to-5-entry list. -/
theorem C2_counterexample :
    RandDraw.Valid fail_draw ∧
    sample_rec99.status = Status.downloading ∧
    sample_rec99.files = [] ∧
    100 ≤ sample_rec99.progress + fail_draw.increment ∧
    (sample_rec99.update_stats fail_draw).status = Status.completed ∧
    (sample_rec99.update_stats fail_draw).progress = 100 ∧
    (sample_rec99.update_stats fail_draw).files = [] := by
  have hv : RandDraw.Valid fail_draw := by
    refine ⟨?_, ?_, ?_, ?_, ?_, ?_, ?_, ?_, ?_, ?_, ?_, ?_, fun i => ?_⟩ <;>
      norm_num [fail_draw, sample_draw, extensions]
  have hge : (100 : ℚ) ≤ sample_rec99.progress + fail_draw.increment := by
    norm_num [sample_rec99, sample_rec, TorrentInfo.init, fail_draw, sample_draw]
  refine ⟨hv, rfl, rfl, hge, ?_, ?_, ?_⟩ <;>
    rw [update_stats_of_downloading_complete sample_rec99 fail_draw rfl hge] <;>
    simp [TorrentInfo.create_dummy_files, RandDraw.files_written, fail_draw, sample_draw,
      sample_rec99, sample_rec, TorrentInfo.init]

/-- C2 (amended): when a downloading record's progress reaches 100 in a
stats update (old progress plus increment at least 100), that same
update sets status to completed exactly once, clamps progress to
exactly 100, zeroes the download speed, sets eta to a zero duration,
and runs file materialization exactly once, appending one entry per
successfully written file; when the directory creation and every write
succeed this is a non-empty list of num_files entries, between 2 and 5
of them, while an I/O failure leaves fewer — possibly zero — entries
with the record completed all the same; and any further stats update
leaves the record — its status and progress included — entirely
unchanged. -/
theorem C2_completion (t : TorrentInfo) (r : RandDraw) (hs : t.status = .downloading)
    (hv : r.Valid) (hreach : 100 ≤ t.progress + r.increment) (hf : t.files = []) :
    (t.update_stats r).status = .completed ∧
    (t.update_stats r).progress = 100 ∧
    (t.update_stats r).download_speed = 0 ∧
    (t.update_stats r).eta = some 0 ∧
    (t.update_stats r).files.length = r.files_written ∧
    r.files_written ≤ r.num_files ∧ r.num_files ≤ 5 ∧
    (r.io_fail = none →
      (t.update_stats r).files.length = r.num_files ∧
      2 ≤ (t.update_stats r).files.length ∧ (t.update_stats r).files.length ≤ 5 ∧
      (t.update_stats r).files ≠ []) ∧
    ∀ r' : RandDraw, (t.update_stats r).update_stats r' = t.update_stats r := by
  obtain ⟨-, -, -, -, -, -, -, -, -, -, hn2, hn5, -⟩ := hv
  rw [update_stats_of_downloading_complete t r hs hreach]
  have hstat : (TorrentInfo.create_dummy_files
      { t with
        progress := 100
        download_speed := 0
        upload_speed := r.ul_speed
        peers := r.peers
        seeds := r.seeds
        downloaded := (t.total_size : ℤ)
        eta := some 0
        status := .completed } r).status = .completed := by
    simp [TorrentInfo.create_dummy_files]
  have hwr : r.files_written ≤ r.num_files := by
    rw [RandDraw.files_written]
    cases r.io_fail with
    | none => exact le_refl _
    | some k => exact min_le_right k r.num_files
  refine ⟨hstat, ?_, ?_, ?_, ?_, hwr, hn5, ?_, ?_⟩
  · simp [TorrentInfo.create_dummy_files]
  · simp [TorrentInfo.create_dummy_files]
  · simp [TorrentInfo.create_dummy_files]
  · simp [TorrentInfo.create_dummy_files, hf]
  · intro hio
    have hwn : r.files_written = r.num_files := by
      rw [RandDraw.files_written, hio]
    refine ⟨?_, ?_, ?_, ?_⟩ <;> simp [TorrentInfo.create_dummy_files, hf, hwn]
    · omega
    · omega
    · omega
  · intro r'
    exact update_stats_of_completed _ r' hstat

/-- C2 witness: the completion conjuncts at the concrete record
sample_rec99 (99 percent, downloading, no files) with draws
sample_draw (increment 2, three dummy files, every write
succeeding). -/
theorem C2_witness :
    (sample_rec99.update_stats sample_draw).status = .completed ∧
    (sample_rec99.update_stats sample_draw).progress = 100 ∧
    (sample_rec99.update_stats sample_draw).download_speed = 0 ∧
    (sample_rec99.update_stats sample_draw).eta = some 0 ∧
    (sample_rec99.update_stats sample_draw).files.length = 3 := by
  have h := C2_completion sample_rec99 sample_draw rfl sample_draw_valid
    (by norm_num [sample_rec99, sample_rec, TorrentInfo.init, sample_draw]) rfl
  exact ⟨h.1, h.2.1, h.2.2.1, h.2.2.2.1, (h.2.2.2.2.2.2.2.1 rfl).1.trans rfl⟩

/-! ## Claim C4 -/

theorem contains_insert_self (m : TorrentManager) (torrent_id : String) (t : TorrentInfo) :
    (m.insert torrent_id t).contains torrent_id = true := by
  rw [TorrentManager.contains, TorrentManager.find?, TorrentManager.insert]
  rw [List.find?_append]
  cases h : m.torrents.find? (fun p => p.1 = torrent_id) with
  | none => simp
  | some p => simp

/-- C4: failing add operations never touch the registry.  A magnet link
without the magnet prefix fails as invalid format and changes nothing;
a successful magnet add followed by a second add of the same link
leaves the second call failing as duplicate with the registry exactly
as after the first call (one record more than before, the original not
overwritten); and any failing file-based add — wrong extension,
duplicate, or failed descriptor write — returns the registry
unchanged. -/
theorem C4_failed_adds (m : TorrentManager) (hash : String → String) (now_name : String)
    (sf sf2 : ℕ) (link : String) :
    (pyStartsWith "magnet:?".data link.data = false →
      (m.add_magnet hash now_name sf link).1 = (false, "Invalid magnet link format", none) ∧
      (m.add_magnet hash now_name sf link).2 = m) ∧
    (pyStartsWith "magnet:?".data link.data = true →
     m.contains (TorrentManager.generate_torrent_id hash link) = false →
      (m.add_magnet hash now_name sf link).1.1 = true ∧
      (m.add_magnet hash now_name sf link).2.torrents.length = m.torrents.length + 1 ∧
      ((m.add_magnet hash now_name sf link).2.add_magnet hash now_name sf2 link).1 =
        (false, "Torrent already exists", none) ∧
      ((m.add_magnet hash now_name sf link).2.add_magnet hash now_name sf2 link).2 =
        (m.add_magnet hash now_name sf link).2) ∧
    (∀ filename : String, ∀ write_ok : Bool, ∀ sfa : ℕ,
      (m.add_torrent_file hash sfa filename write_ok).1.1 = false →
      (m.add_torrent_file hash sfa filename write_ok).2 = m) := by
  refine ⟨?_, ?_, ?_⟩
  · intro h
    constructor <;> simp [TorrentManager.add_magnet, h]
  · intro h hc
    have hins : (m.add_magnet hash now_name sf link).2 =
        m.insert (TorrentManager.generate_torrent_id hash link)
          (TorrentInfo.init (TorrentManager.generate_torrent_id hash link)
            (magnet_name link now_name) (some link) none sf) := by
      simp [TorrentManager.add_magnet, h, hc]
    have hcontains := contains_insert_self m (TorrentManager.generate_torrent_id hash link)
      (TorrentInfo.init (TorrentManager.generate_torrent_id hash link)
        (magnet_name link now_name) (some link) none sf)
    refine ⟨?_, ?_, ?_, ?_⟩
    · simp [TorrentManager.add_magnet, h, hc]
    · rw [hins]
      simp [TorrentManager.insert]
    · rw [hins]
      simp [TorrentManager.add_magnet, h, hcontains]
    · rw [hins]
      simp [TorrentManager.add_magnet, h, hcontains]
  · intro filename write_ok sfa hfail
    by_cases h1 : pyEndsWith torrentExtPat filename.data = true
    · by_cases h2 : m.contains (TorrentManager.generate_torrent_id hash filename) = true
      · simp [TorrentManager.add_torrent_file, h1, h2]
      · by_cases h3 : write_ok = true
        · simp [TorrentManager.add_torrent_file, h1, h2, h3] at hfail
        · simp [TorrentManager.add_torrent_file, h1, h2, h3]
    · simp [TorrentManager.add_torrent_file, h1]

/-- C4 witness: adding sample_link twice to the empty registry: the
first call succeeds, the second fails as duplicate leaving the registry
of the first call untouched. -/
theorem C4_witness :
    (TorrentManager.empty.add_magnet sample_hash "ts" 100 sample_link).1.1 = true ∧
    ((TorrentManager.empty.add_magnet sample_hash "ts" 100 sample_link).2.add_magnet
        sample_hash "ts" 200 sample_link).1 = (false, "Torrent already exists", none) ∧
    ((TorrentManager.empty.add_magnet sample_hash "ts" 100 sample_link).2.add_magnet
        sample_hash "ts" 200 sample_link).2 =
      (TorrentManager.empty.add_magnet sample_hash "ts" 100 sample_link).2 := by
  have h := (C4_failed_adds TorrentManager.empty sample_hash "ts" 100 200 sample_link).2.1
    (by decide) (by decide)
  exact ⟨h.1, h.2.2.1, h.2.2.2⟩

/-! ## Claim C5 -/

/-- C5: delete fails as not-found on an absent id; with removeFiles
true, an existing directory and a failing rmtree it reports failure,
records that rmtree was attempted, and leaves the registry unchanged
(the record is still there); in every other case it succeeds, removes
exactly that record, and leaves all other entries untouched; and with
removeFiles false rmtree is never invoked. -/
theorem C5_delete (m : TorrentManager) (torrent_id : String) (df dd ro : Bool) :
    (m.find? torrent_id = none →
      m.delete_torrent torrent_id df dd ro = ⟨false, "Torrent not found", m, false⟩) ∧
    (∀ t, m.find? torrent_id = some t →
      (df = true → dd = true → ro = false →
        (m.delete_torrent torrent_id df dd ro).success = false ∧
        (m.delete_torrent torrent_id df dd ro).mgr = m ∧
        (m.delete_torrent torrent_id df dd ro).mgr.find? torrent_id = some t ∧
        (m.delete_torrent torrent_id df dd ro).rmtree_called = true) ∧
      ((df = true → dd = true → ro = true) →
        (m.delete_torrent torrent_id df dd ro).success = true ∧
        (m.delete_torrent torrent_id df dd ro).mgr.find? torrent_id = none ∧
        ∀ j, ¬ j = torrent_id →
          (m.delete_torrent torrent_id df dd ro).mgr.find? j = m.find? j) ∧
      (df = false → (m.delete_torrent torrent_id df dd ro).rmtree_called = false)) := by
  refine ⟨?_, ?_⟩
  · intro h
    simp [TorrentManager.delete_torrent, h]
  · intro t h
    refine ⟨?_, ?_, ?_⟩
    · intro hdf hdd hro
      subst hdf; subst hdd; subst hro
      simp [TorrentManager.delete_torrent, h]
    · intro himp
      have hres : (m.delete_torrent torrent_id df dd ro).success = true ∧
          (m.delete_torrent torrent_id df dd ro).mgr = m.erase torrent_id := by
        by_cases hdd : (df && dd) = true
        · have hro : ro = true := by
            rcases Bool.and_eq_true df dd |>.mp hdd with ⟨h1, h2⟩
            exact himp h1 h2
          subst hro
          simp [TorrentManager.delete_torrent, h, hdd]
        · simp [TorrentManager.delete_torrent, h, hdd]
      refine ⟨hres.1, ?_, ?_⟩
      · rw [hres.2]
        exact erase_find?_self m torrent_id
      · intro j hj
        rw [hres.2]
        exact erase_find?_ne m torrent_id j hj
    · intro hdf
      subst hdf
      simp [TorrentManager.delete_torrent, h]

/-- C5 witness: deleting the one record of the concrete registry
sample_mgr with removeFiles true, directory present and rmtree
succeeding removes the record. -/
theorem C5_witness :
    (sample_mgr.delete_torrent sample_id true true true).success = true ∧
    (sample_mgr.delete_torrent sample_id true true true).mgr.find? sample_id = none := by
  have hfind : sample_mgr.find? sample_id = some sample_rec := by
    rw [TorrentManager.find?, sample_mgr_torrents]
    simp
  have h := ((C5_delete sample_mgr sample_id true true true).2 sample_rec hfind).2.1
    (fun _ _ => rfl)
  exact ⟨h.1, h.2.1⟩

/-! ## Claim C6 -/

/-- C6: pause fails as not-found on an absent id and as invalid
transition on a completed record, and otherwise sets exactly that
record's status to paused, all its other fields and all other records
unchanged; resume fails as not-found on an absent id and as invalid
transition on any non-paused record, and otherwise sets the record's
status to downloading likewise; every failure returns the registry
unchanged. -/
theorem C6_pause_resume (m : TorrentManager) (torrent_id : String) :
    (m.find? torrent_id = none →
      m.pause_torrent torrent_id = ((false, "Torrent not found"), m) ∧
      m.resume_torrent torrent_id = ((false, "Torrent not found"), m)) ∧
    (∀ t, m.find? torrent_id = some t →
      (t.status = .completed →
        m.pause_torrent torrent_id = ((false, "Cannot pause completed torrent"), m)) ∧
      (¬ t.status = .completed →
        (m.pause_torrent torrent_id).1.1 = true ∧
        (m.pause_torrent torrent_id).2.find? torrent_id = some { t with status := .paused } ∧
        ∀ j, ¬ j = torrent_id → (m.pause_torrent torrent_id).2.find? j = m.find? j) ∧
      (¬ t.status = .paused →
        m.resume_torrent torrent_id = ((false, "Torrent is not paused"), m)) ∧
      (t.status = .paused →
        (m.resume_torrent torrent_id).1.1 = true ∧
        (m.resume_torrent torrent_id).2.find? torrent_id =
          some { t with status := .downloading } ∧
        ∀ j, ¬ j = torrent_id → (m.resume_torrent torrent_id).2.find? j = m.find? j)) := by
  refine ⟨?_, ?_⟩
  · intro h
    constructor <;> simp [TorrentManager.pause_torrent, TorrentManager.resume_torrent, h]
  · intro t h
    refine ⟨?_, ?_, ?_, ?_⟩
    · intro hc
      simp [TorrentManager.pause_torrent, h, hc]
    · intro hc
      simp only [TorrentManager.pause_torrent, h]
      rw [if_neg hc]
      exact ⟨rfl, set_find?_self m torrent_id t _ h,
        fun j hj => set_find?_ne m torrent_id j _ hj⟩
    · intro hp
      simp only [TorrentManager.resume_torrent, h]
      rw [if_pos hp]
    · intro hp
      simp only [TorrentManager.resume_torrent, h]
      rw [if_neg (by simp [hp])]
      exact ⟨rfl, set_find?_self m torrent_id t _ h,
        fun j hj => set_find?_ne m torrent_id j _ hj⟩

/-- C6 witness: pausing the downloading record of the concrete registry
sample_mgr succeeds and stores the paused record; resuming the same
record fails as not paused, registry unchanged. -/
theorem C6_witness :
    (sample_mgr.pause_torrent sample_id).1.1 = true ∧
    (sample_mgr.pause_torrent sample_id).2.find? sample_id =
      some { sample_rec with status := .paused } ∧
    sample_mgr.resume_torrent sample_id = ((false, "Torrent is not paused"), sample_mgr) := by
  have hfind : sample_mgr.find? sample_id = some sample_rec := by
    rw [TorrentManager.find?, sample_mgr_torrents]
    simp
  have h := (C6_pause_resume sample_mgr sample_id).2 sample_rec hfind
  exact ⟨(h.2.1 (by decide)).1, (h.2.1 (by decide)).2.1, h.2.2.1 (by decide)⟩

/-! ## Claim C9 -/

/-- C9: the archive built from a record is a ZIP_DEFLATED archive whose
entries are the bare filenames of exactly the listed files whose
on-disk path exists: with every path present there are as many entries
as listed files; with exactly one listed file missing on disk that file
is skipped silently and the archive has one entry fewer, the rest in
order. -/
theorem C9_zip (t : TorrentInfo) (on_disk : String → Bool) :
    ((∀ f ∈ t.files, on_disk f.path = true) →
      (create_zip_from_torrent t on_disk).entries = t.files.map FileEntry.name ∧
      (create_zip_from_torrent t on_disk).entries.length = t.files.length) ∧
    (∀ a : List FileEntry, ∀ f0 : FileEntry, ∀ b : List FileEntry,
      t.files = a ++ f0 :: b → on_disk f0.path = false →
      (∀ f ∈ a, on_disk f.path = true) → (∀ f ∈ b, on_disk f.path = true) →
      (create_zip_from_torrent t on_disk).entries = (a ++ b).map FileEntry.name ∧
      (create_zip_from_torrent t on_disk).entries.length = t.files.length - 1) ∧
    (create_zip_from_torrent t on_disk).compression = "ZIP_DEFLATED" := by
  refine ⟨?_, ?_, rfl⟩
  · intro hall
    have hfilter : t.files.filter (fun f => on_disk f.path) = t.files :=
      List.filter_eq_self.mpr hall
    constructor
    · show (t.files.filter (fun f => on_disk f.path)).map FileEntry.name = _
      rw [hfilter]
    · show ((t.files.filter (fun f => on_disk f.path)).map FileEntry.name).length = _
      rw [hfilter, List.length_map]
  · intro a f0 b hfiles h0 ha hb
    have hfa : a.filter (fun f => on_disk f.path) = a := List.filter_eq_self.mpr ha
    have hfb : b.filter (fun f => on_disk f.path) = b := List.filter_eq_self.mpr hb
    have hfilter : t.files.filter (fun f => on_disk f.path) = a ++ b := by
      rw [hfiles, List.filter_append, hfa, List.filter_cons_of_neg (by simp [h0]), hfb]
    constructor
    · show (t.files.filter (fun f => on_disk f.path)).map FileEntry.name = _
      rw [hfilter]
    · show ((t.files.filter (fun f => on_disk f.path)).map FileEntry.name).length = _
      rw [hfilter, List.length_map, hfiles]
      simp

/-- C9 witness: the archive of the two-file record zip_rec with its
second file missing on disk holds exactly the first file's bare name;
the archive of the same record with every file present holds both. -/
theorem C9_witness :
    (create_zip_from_torrent zip_rec zip_on_disk).entries = ["a.mp4"] ∧
    (create_zip_from_torrent zip_rec zip_on_disk).entries.length = zip_rec.files.length - 1 ∧
    (create_zip_from_torrent zip_rec zip_on_disk).compression = "ZIP_DEFLATED" := by
  have h := (C9_zip zip_rec zip_on_disk).2.1
    [⟨"a.mp4", "/tmp/downloads/My Movie/a.mp4", 10⟩]
    ⟨"b.mkv", "/tmp/downloads/My Movie/b.mkv", 20⟩ [] (by decide) (by decide)
    (by decide) (by decide)
  exact ⟨h.1.trans (by decide), h.2, (C9_zip zip_rec zip_on_disk).2.2⟩

/-! ## String lemmas for the display-name claim -/

theorem isPrefixOf_of_append_cons (sep : List Char) (c : Char) (hc : c ∉ sep) :
    ∀ v w : List Char, sep.isPrefixOf (v ++ c :: w) = true → sep.isPrefixOf v = true := by
  induction sep with
  | nil => intro v w _; simp [List.isPrefixOf]
  | cons x sep' ih =>
    intro v w h
    cases v with
    | nil =>
      exfalso
      simp only [List.nil_append, List.isPrefixOf, Bool.and_eq_true, beq_iff_eq] at h
      exact hc (h.1 ▸ List.mem_cons_self x sep')
    | cons y v' =>
      simp only [List.cons_append, List.isPrefixOf, Bool.and_eq_true] at h ⊢
      exact ⟨h.1, ih (fun hm => hc (List.mem_cons_of_mem x hm)) v' w h.2⟩

theorem findSplit_cons_none (sep : List Char) (y : Char) (v : List Char)
    (h : findSplit sep (y :: v) = none) :
    sep.isPrefixOf (y :: v) = false ∧ findSplit sep v = none := by
  rw [findSplit] at h
  by_cases hp : sep.isPrefixOf (y :: v) = true
  · rw [if_pos hp] at h
    simp at h
  · have hfalse : sep.isPrefixOf (y :: v) = false := by
      cases hb : sep.isPrefixOf (y :: v) with
      | false => rfl
      | true => exact absurd hb hp
    refine ⟨hfalse, ?_⟩
    rw [if_neg hp] at h
    cases hfs : findSplit sep v with
    | none => rfl
    | some pr =>
      rw [hfs] at h
      simp at h

theorem findSplit_append_cons (sep : List Char) (c : Char) (hsep : sep ≠ []) (hc : c ∉ sep) :
    ∀ v w : List Char, findSplit sep v = none →
      findSplit sep (v ++ c :: w) =
        (findSplit sep w).map (fun pr => (v ++ c :: pr.1, pr.2)) := by
  intro v
  induction v with
  | nil =>
    intro w _
    simp only [List.nil_append]
    rw [findSplit]
    have hpre : sep.isPrefixOf (c :: w) = false := by
      cases sep with
      | nil => exact absurd rfl hsep
      | cons x sep' =>
        simp only [List.isPrefixOf, Bool.and_eq_false_iff]
        left
        simp only [beq_eq_false_iff_ne, ne_eq]
        intro hx
        exact hc (hx ▸ List.mem_cons_self x sep')
    rw [if_neg (by simp [hpre])]
    cases hfs : findSplit sep w with
    | none => simp
    | some pr => simp
  | cons y v' ih =>
    intro w hv
    obtain ⟨hpre', hv'⟩ := findSplit_cons_none sep y v' hv
    have hpre2 : sep.isPrefixOf ((y :: v') ++ c :: w) = false := by
      by_contra hcon
      rw [Bool.not_eq_false] at hcon
      have := isPrefixOf_of_append_cons sep c hc (y :: v') w hcon
      rw [this] at hpre'
      simp at hpre'
    have hpre3 : sep.isPrefixOf (y :: (v' ++ c :: w)) = false := hpre2
    rw [List.cons_append, findSplit, if_neg (by rw [hpre3]; simp)]
    rw [ih w hv']
    cases hfs : findSplit sep w with
    | none => simp
    | some pr => simp

theorem findSplit_single_none (c : Char) (v : List Char) (hv : ∀ x ∈ v, ¬ x = c) :
    findSplit [c] v = none := by
  induction v with
  | nil => rfl
  | cons y v' ih =>
    rw [findSplit]
    have hy : ¬ y = c := hv y (List.mem_cons_self y v')
    have hpre : [c].isPrefixOf (y :: v') = false := by
      simp only [List.isPrefixOf, Bool.and_eq_false_iff]
      left
      simp only [beq_eq_false_iff_ne, ne_eq]
      intro hcy
      exact hy hcy.symm
    rw [if_neg (by simp [hpre]), ih (fun x hx => hv x (List.mem_cons_of_mem y hx))]

theorem findSplit_single_append (c : Char) (v w : List Char) (hv : ∀ x ∈ v, ¬ x = c) :
    findSplit [c] (v ++ c :: w) = some (v, w) := by
  induction v with
  | nil =>
    simp only [List.nil_append]
    rw [findSplit]
    have hpre : [c].isPrefixOf (c :: w) = true := by
      simp [List.isPrefixOf]
    rw [if_pos hpre]
    simp
  | cons y v' ih =>
    have hy : ¬ y = c := hv y (List.mem_cons_self y v')
    have hpre : [c].isPrefixOf ((y :: v') ++ c :: w) = false := by
      simp only [List.cons_append, List.isPrefixOf, Bool.and_eq_false_iff]
      left
      simp only [beq_eq_false_iff_ne, ne_eq]
      intro hcy
      exact hy hcy.symm
    have hpre3 : [c].isPrefixOf (y :: (v' ++ c :: w)) = false := hpre
    rw [List.cons_append, findSplit, if_neg (by rw [hpre3]; simp)]
    rw [ih (fun x hx => hv x (List.mem_cons_of_mem y hx))]

theorem pySplitAux_of_none (sep s : List Char) (f : ℕ) (h : findSplit sep s = none) :
    pySplitAux sep f s = [s] := by
  cases f with
  | zero => rfl
  | succ f' => rw [pySplitAux, h]

theorem pySplitAux_succ_some (sep s a b : List Char) (f : ℕ)
    (h : findSplit sep s = some (a, b)) : pySplitAux sep (f + 1) s = a :: pySplitAux sep f b := by
  rw [pySplitAux, h]

theorem magnet_name_chars_no_amp (link p v : List Char)
    (h : findSplit dnPat link = some (p, v)) (hv : findSplit dnPat v = none)
    (hamp : ∀ x ∈ v, ¬ x = '&') :
    magnet_name_chars link = decode_name v := by
  have h1 : pySplit dnPat link = p :: pySplitAux dnPat link.length v :=
    pySplitAux_succ_some dnPat link p v link.length h
  have h2 : pySplitAux dnPat link.length v = [v] := pySplitAux_of_none _ _ _ hv
  have hraw : (pySplit dnPat link).getD 1 [] = v := by
    rw [h1, h2]
    rfl
  have hampsplit : (pySplit ampPat v).getD 0 [] = v := by
    have hnone : findSplit ampPat v = none := findSplit_single_none '&' v hamp
    rw [pySplit, pySplitAux_of_none _ _ _ hnone]
    rfl
  simp only [magnet_name_chars]
  rw [hraw, hampsplit]
  rfl

theorem magnet_name_chars_amp (link p v s : List Char)
    (h : findSplit dnPat link = some (p, v ++ '&' :: s))
    (hv : findSplit dnPat v = none) (hamp : ∀ x ∈ v, ¬ x = '&') :
    magnet_name_chars link = decode_name v := by
  have h1 : pySplit dnPat link = p :: pySplitAux dnPat link.length (v ++ '&' :: s) :=
    pySplitAux_succ_some dnPat link p _ link.length h
  have h2 := findSplit_append_cons dnPat '&' (by decide) (by decide) v s hv
  have hraw : ∃ w, (pySplit dnPat link).getD 1 [] = v ++ '&' :: w := by
    cases hfs : findSplit dnPat s with
    | none =>
      rw [hfs, Option.map_none'] at h2
      refine ⟨s, ?_⟩
      rw [h1, pySplitAux_of_none _ _ _ h2]
      rfl
    | some pr =>
      obtain ⟨pre, post⟩ := pr
      rw [hfs, Option.map_some'] at h2
      obtain ⟨k, hk⟩ : ∃ k, link.length = k + 1 := by
        cases link with
        | nil => rw [findSplit] at h; simp at h
        | cons a l => exact ⟨l.length, rfl⟩
      refine ⟨pre, ?_⟩
      rw [h1, hk, pySplitAux_succ_some dnPat _ _ _ k h2]
      rfl
  obtain ⟨w, hraw⟩ := hraw
  have hampsplit : (pySplit ampPat (v ++ '&' :: w)).getD 0 [] = v := by
    have hsingle : findSplit ampPat (v ++ '&' :: w) = some (v, w) :=
      findSplit_single_append '&' v w hamp
    rw [pySplit, pySplitAux_succ_some ampPat _ _ _ _ hsingle]
    rfl
  simp only [magnet_name_chars]
  rw [hraw, hampsplit]
  rfl

theorem dn_prefix_of_append (v s : List Char)
    (h : dnPat.isPrefixOf (v ++ dnPat ++ s) = true) (hne : v ≠ []) :
    dnPat.isPrefixOf v = true := by
  match v with
  | [] => exact absurd rfl hne
  | [a] =>
    exfalso
    simp [dnPat, List.isPrefixOf] at h
  | [a, b] =>
    exfalso
    simp [dnPat, List.isPrefixOf] at h
  | a :: b :: c :: v2 =>
    simp [dnPat, List.isPrefixOf] at h ⊢
    exact h

theorem findSplit_cons_neg (sep : List Char) (y : Char) (v : List Char)
    (h : sep.isPrefixOf (y :: v) = false) :
    findSplit sep (y :: v) =
      match findSplit sep v with
      | some pr => some (y :: pr.1, pr.2)
      | none => none := by
  rw [findSplit, if_neg (by rw [h]; simp)]
  cases findSplit sep v with
  | none => rfl
  | some pr => rfl

theorem findSplit_marker (s : List Char) :
    ∀ v : List Char, findSplit dnPat v = none →
      findSplit dnPat (v ++ dnPat ++ s) = some (v, s) := by
  intro v
  induction v with
  | nil =>
    intro _
    simp only [List.nil_append]
    rw [show dnPat ++ s = 'd' :: 'n' :: '=' :: s from rfl]
    simp [findSplit, dnPat, List.isPrefixOf]
  | cons y v2 ih =>
    intro hv
    obtain ⟨hpre1, hv2⟩ := findSplit_cons_none dnPat y v2 hv
    have hpre2 : dnPat.isPrefixOf ((y :: v2) ++ dnPat ++ s) = false := by
      cases hb : dnPat.isPrefixOf ((y :: v2) ++ dnPat ++ s) with
      | false => rfl
      | true =>
        have := dn_prefix_of_append (y :: v2) s hb (by simp)
        rw [this] at hpre1
        simp at hpre1
    have hpre3 : dnPat.isPrefixOf (y :: (v2 ++ dnPat ++ s)) = false := hpre2
    simp only [List.cons_append]
    rw [findSplit_cons_neg dnPat y (v2 ++ dnPat ++ s) hpre3, ih hv2]

theorem magnet_name_chars_second_dn (link p v s : List Char)
    (h : findSplit dnPat link = some (p, v ++ dnPat ++ s))
    (hv : findSplit dnPat v = none) (hamp : ∀ x ∈ v, ¬ x = '&') :
    magnet_name_chars link = decode_name v := by
  have h1 : pySplit dnPat link = p :: pySplitAux dnPat link.length (v ++ dnPat ++ s) :=
    pySplitAux_succ_some dnPat link p _ link.length h
  have h2 : findSplit dnPat (v ++ dnPat ++ s) = some (v, s) := findSplit_marker s v hv
  obtain ⟨k, hk⟩ : ∃ k, link.length = k + 1 := by
    cases link with
    | nil => rw [findSplit] at h; simp at h
    | cons a l => exact ⟨l.length, rfl⟩
  have hraw : (pySplit dnPat link).getD 1 [] = v := by
    rw [h1, hk, pySplitAux_succ_some dnPat _ _ _ k h2]
    rfl
  have hampsplit : (pySplit ampPat v).getD 0 [] = v := by
    have hnone : findSplit ampPat v = none := findSplit_single_none '&' v hamp
    rw [pySplit, pySplitAux_of_none _ _ _ hnone]
    rfl
  simp only [magnet_name_chars]
  rw [hraw, hampsplit]
  rfl

/-! ## Claim C7 -/

/-- C7 counterexample: on the magnet link "magnet:?xt=A&dn=abdn=cd" —
which contains a dn= component whose value, read to the next ampersand
as the claim words it, is "abdn=cd" — the code's name extraction stops
at the next "dn=" occurrence as well, because Python's
split("dn=")[1] is the text between the first and second occurrences:
the record name is "ab", not "abdn=cd".  The same holds through
add_magnet. -/
theorem C7_counterexample :
    magnet_name "magnet:?xt=A&dn=abdn=cd" "ts" = "ab" ∧
    claim_display_name "magnet:?xt=A&dn=abdn=cd" = "abdn=cd" ∧
    ¬ magnet_name "magnet:?xt=A&dn=abdn=cd" "ts" =
        claim_display_name "magnet:?xt=A&dn=abdn=cd" ∧
    ((TorrentManager.empty.add_magnet sample_hash "ts" 100
        "magnet:?xt=A&dn=abdn=cd").2.find? sample_id).map TorrentInfo.name = some "ab" := by
  exact ⟨by decide, by decide, by decide, by decide⟩

/-- C7 amended: for a magnet link without a dn= component the name is
Torrent_ followed by the caller's current-time stamp.  For a link with
a dn= component, the name is the value after the first dn= truncated at
the next ampersand or the next dn= occurrence, whichever comes first,
with every + and %20 decoded to a space.  The three value cases are
exhaustive: the region after the first dn= either contains neither an
ampersand nor a further dn= (the value runs to the end of the link), or
its first ampersand precedes any dn= (truncate there), or its first
dn= precedes any ampersand (Python's split("dn=")[1] truncates there —
the behaviour the counterexample exhibits).  The spec's concrete
scenario link yields the name "My Movie". -/
theorem C7_display_name_amended (now_name : String) :
    (∀ link : String, pyContains dnPat link.data = false →
      magnet_name link now_name = "Torrent_" ++ now_name) ∧
    (∀ link : String, ∀ p v : List Char,
      findSplit dnPat link.data = some (p, v) → findSplit dnPat v = none →
      (∀ x ∈ v, ¬ x = '&') →
      magnet_name link now_name = String.mk (decode_name v)) ∧
    (∀ link : String, ∀ p v s : List Char,
      findSplit dnPat link.data = some (p, v ++ '&' :: s) → findSplit dnPat v = none →
      (∀ x ∈ v, ¬ x = '&') →
      magnet_name link now_name = String.mk (decode_name v)) ∧
    (∀ link : String, ∀ p v s : List Char,
      findSplit dnPat link.data = some (p, v ++ dnPat ++ s) → findSplit dnPat v = none →
      (∀ x ∈ v, ¬ x = '&') →
      magnet_name link now_name = String.mk (decode_name v)) ∧
    magnet_name "magnet:?xt=urn:btih:ABC&dn=My+Movie" now_name = "My Movie" := by
  refine ⟨?_, ?_, ?_, ?_, ?_⟩
  · intro link h
    simp [magnet_name, h]
  · intro link p v h hv hamp
    have hc : pyContains dnPat link.data = true := by
      rw [pyContains, h]
      rfl
    simp only [magnet_name, hc, if_true]
    exact congrArg String.mk (magnet_name_chars_no_amp link.data p v h hv hamp)
  · intro link p v s h hv hamp
    have hc : pyContains dnPat link.data = true := by
      rw [pyContains, h]
      rfl
    simp only [magnet_name, hc, if_true]
    exact congrArg String.mk (magnet_name_chars_amp link.data p v s h hv hamp)
  · intro link p v s h hv hamp
    have hc : pyContains dnPat link.data = true := by
      rw [pyContains, h]
      rfl
    simp only [magnet_name, hc, if_true]
    exact congrArg String.mk (magnet_name_chars_second_dn link.data p v s h hv hamp)
  · have hc : pyContains dnPat "magnet:?xt=urn:btih:ABC&dn=My+Movie".data = true := by decide
    simp only [magnet_name, hc, if_true]
    decide

/-- C7 witness: the amended statement applied at concrete links — one
with a dn= value closed by an ampersand, one with the value running to
the end, one where a second dn= precedes the ampersand (the truncating
case of the counterexample, with the explicit value "ab"), and one
without any dn= component. -/
theorem C7_witness :
    magnet_name "magnet:?dn=My+Movie&x" "20250101" = String.mk (decode_name "My+Movie".data) ∧
    magnet_name "magnet:?xt=u&dn=A%20B" "20250101" = String.mk (decode_name "A%20B".data) ∧
    magnet_name "magnet:?dn=abdn=cd&x" "20250101" = String.mk (decode_name "ab".data) ∧
    magnet_name "magnet:?xt=u" "20250101" = "Torrent_" ++ "20250101" := by
  refine ⟨?_, ?_, ?_, ?_⟩
  · exact (C7_display_name_amended "20250101").2.2.1 "magnet:?dn=My+Movie&x"
      "magnet:?".data "My+Movie".data "x".data (by decide) (by decide) (by decide)
  · exact (C7_display_name_amended "20250101").2.1 "magnet:?xt=u&dn=A%20B"
      "magnet:?xt=u&".data "A%20B".data (by decide) (by decide) (by decide)
  · exact (C7_display_name_amended "20250101").2.2.2.1 "magnet:?dn=abdn=cd&x"
      "magnet:?".data "ab".data "cd&x".data (by decide) (by decide) (by decide)
  · exact (C7_display_name_amended "20250101").1 "magnet:?xt=u" (by decide)
